import Mathlib

/-!
Verification development for the `MessageParser` component of the
weehours-pub repository (src/parser/message-parser.ts).

Strings are modelled as lists of characters (one `Char` per JS UTF-16 code
unit for the inputs of interest).  JS regex semantics are embedded
faithfully for the concrete regexes appearing in the source:
  - `.` matches any character except the JS line terminators
    (LF, CR, U+2028, U+2029);
  - `\w` is `[A-Za-z0-9_]`;
  - `\s` is the JS whitespace set (also used by `String.prototype.trim`);
  - `String.replace(re, '')` with a global regex is the left-to-right
    scan that removes each leftmost match and resumes after it;
  - `String.match(re)` (no global flag) returns the leftmost match with
    backtracking semantics; for each concrete pattern below the
    backtracking behaviour is derived and implemented deterministically.
-/

namespace WeeHours

/-- A JS string, one `Char` per code unit. -/
abbrev JStr := List Char

/-- The telnet IAC byte 0xFF, as it appears in the source regex `\xFF`. -/
def IAC : Char := '\xFF'

/-- JS regex `.` (without the `s` flag) matches everything except the four
ECMAScript line terminators LF, CR, U+2028, U+2029. -/
def isLineTerm (c : Char) : Bool :=
  c = '\n' || c = '\r' || c = '\u2028' || c = '\u2029'

/-- JS regex `\w`: `[A-Za-z0-9_]`. -/
def isWordChar (c : Char) : Bool :=
  ('a' ≤ c && c ≤ 'z') || ('A' ≤ c && c ≤ 'Z') || ('0' ≤ c && c ≤ '9') || c = '_'

/-- JS regex `\s` (= the set used by `String.prototype.trim`):
WhiteSpace ∪ LineTerminator of ECMAScript. -/
def isJsWhite (c : Char) : Bool :=
  c = ' ' || c = '\t' || c = '\n' || c = '\x0b' || c = '\x0c' || c = '\r' ||
  c = '\u00a0' || c = '\u1680' ||
  ('\u2000' ≤ c && c ≤ '\u200a') ||
  c = '\u2028' || c = '\u2029' || c = '\u202f' || c = '\u205f' ||
  c = '\u3000' || c = '\ufeff'

/-- `String.prototype.trim`. -/
def jsTrim (l : JStr) : JStr :=
  ((l.dropWhile isJsWhite).reverse.dropWhile isJsWhite).reverse

/-- `pat` is a prefix of `l` (char-for-char). -/
def startsLit : JStr → JStr → Bool
  | [], _ => true
  | _ :: _, [] => false
  | p :: ps, c :: cs => p = c && startsLit ps cs

/-- `String.prototype.includes(pat)`: `pat` occurs as a contiguous
substring of `l`. -/
def containsLit (pat : JStr) : JStr → Bool
  | [] => startsLit pat []
  | c :: cs => startsLit pat (c :: cs) || containsLit pat cs

/-- Strip the literal `pat` off the front of `l`, returning the rest. -/
def stripLit : JStr → JStr → Option JStr
  | [], l => some l
  | _ :: _, [] => none
  | p :: ps, c :: cs => if p = c then stripLit ps cs else none

/-- `String.prototype.split(sep)` for a one-character separator. -/
def splitOnChar (sep : Char) : JStr → List JStr
  | [] => [[]]
  | c :: cs =>
    if c = sep then [] :: splitOnChar sep cs
    else
      match splitOnChar sep cs with
      | [] => [[c]]
      | h :: t => (c :: h) :: t

/-- The second char-class of the regex `/\xFF[\xFB-\xFF]./g`:
a code unit in the range 0xFB–0xFF. -/
def isTelCmdByte (c : Char) : Bool := '\xfb' ≤ c && c ≤ '\xff'

/-- `content.replace(/\xFF[\xFB-\xFF]./g, '')`: left-to-right scan
removing each 3-character match; where no match starts, the character is
kept and the scan advances by one. -/
def telnetStrip : JStr → JStr
  | [] => []
  | [c] => [c]
  | [c, c2] => [c, c2]
  | c :: c2 :: c3 :: rest =>
    if c = IAC ∧ isTelCmdByte c2 = true ∧ isLineTerm c3 = false then
      telnetStrip rest
    else
      c :: telnetStrip (c2 :: c3 :: rest)

/-- `cleaned.replace(/\r\n/g, '\n')`. -/
def crlfToLf : JStr → JStr
  | [] => []
  | [c] => [c]
  | c :: c2 :: rest =>
    if c = '\r' ∧ c2 = '\n' then '\n' :: crlfToLf rest
    else c :: crlfToLf (c2 :: rest)

/-- `cleaned.replace(/\r/g, '\n')`. -/
def crToLf (l : JStr) : JStr :=
  l.map fun c => if c = '\r' then '\n' else c

/-- `MessageParser.cleanContent`: strip telnet negotiation sequences, then
normalize line endings. -/
def cleanContent (content : JStr) : JStr :=
  crToLf (crlfToLf (telnetStrip content))

/-- Unanchored regex search: try the position matcher `p` at every start
position, leftmost first (`RegExp.prototype.test`). -/
def existsAt (p : JStr → Bool) : JStr → Bool
  | [] => p []
  | c :: cs => p (c :: cs) || existsAt p cs

/-- Unanchored regex match: return the leftmost position result
(`String.prototype.match` without the global flag). -/
def findMapAt {α : Type} (f : JStr → Option α) : JStr → Option α
  | [] => f []
  | c :: cs =>
    match f (c :: cs) with
    | some x => some x
    | none => findMapAt f cs

/-- At one position: `You say in \w+:` (the test regex of
`isChatMessage`).  `\w+` followed by `:` needs no backtracking since `:`
is not a word character. -/
def youSayTestAt (l : JStr) : Bool :=
  match stripLit "You say in ".toList l with
  | none => false
  | some r =>
    !(r.takeWhile isWordChar).isEmpty &&
    (match r.dropWhile isWordChar with
     | ':' :: _ => true
     | _ => false)

/-- At one position: `\w+ says in \w+:`. -/
def saysInTestAt (l : JStr) : Bool :=
  !(l.takeWhile isWordChar).isEmpty &&
  (match stripLit " says in ".toList (l.dropWhile isWordChar) with
   | none => false
   | some r =>
     !(r.takeWhile isWordChar).isEmpty &&
     (match r.dropWhile isWordChar with
      | ':' :: _ => true
      | _ => false))

/-- At one position: `\w+ tells you:`. -/
def tellsYouTestAt (l : JStr) : Bool :=
  !(l.takeWhile isWordChar).isEmpty &&
  (match stripLit " tells you:".toList (l.dropWhile isWordChar) with
   | some _ => true
   | none => false)

/-- At one position: `You tell \w+:`. -/
def youTellTestAt (l : JStr) : Bool :=
  match stripLit "You tell ".toList l with
  | none => false
  | some r =>
    !(r.takeWhile isWordChar).isEmpty &&
    (match r.dropWhile isWordChar with
     | ':' :: _ => true
     | _ => false)

/-- `/You say in \w+:/.test(content)`. -/
def testYouSay (l : JStr) : Bool := existsAt youSayTestAt l

/-- `/\w+ says in \w+:/.test(content)`. -/
def testSaysIn (l : JStr) : Bool := existsAt saysInTestAt l

/-- `/\w+ tells you:/.test(content)`. -/
def testTellsYou (l : JStr) : Bool := existsAt tellsYouTestAt l

/-- `/You tell \w+:/.test(content)`. -/
def testYouTell (l : JStr) : Bool := existsAt youTellTestAt l

/-- At one position: `You say in (\w+): (.+)` returning
(language, message).  The trailing `(.+)` is greedy with nothing after
it, so it captures the maximal run of non-line-terminators (length ≥ 1). -/
def youSayMatchAt (l : JStr) : Option (JStr × JStr) :=
  match stripLit "You say in ".toList l with
  | none => none
  | some r =>
    let w := r.takeWhile isWordChar
    if w.isEmpty then none
    else
      match stripLit ": ".toList (r.dropWhile isWordChar) with
      | none => none
      | some r2 =>
        let m := r2.takeWhile fun c => !isLineTerm c
        if m.isEmpty then none else some (w, m)

/-- At one position: `(\w+) says in (\w+): (.+)` returning
(speaker, language, message). -/
def saysInMatchAt (l : JStr) : Option (JStr × JStr × JStr) :=
  let w1 := l.takeWhile isWordChar
  if w1.isEmpty then none
  else
    match stripLit " says in ".toList (l.dropWhile isWordChar) with
    | none => none
    | some r =>
      let w2 := r.takeWhile isWordChar
      if w2.isEmpty then none
      else
        match stripLit ": ".toList (r.dropWhile isWordChar) with
        | none => none
        | some r2 =>
          let m := r2.takeWhile fun c => !isLineTerm c
          if m.isEmpty then none else some (w1, w2, m)

/-- At one position: `(\w+) tells you: (.+)` returning
(speaker, message). -/
def tellsYouMatchAt (l : JStr) : Option (JStr × JStr) :=
  let w1 := l.takeWhile isWordChar
  if w1.isEmpty then none
  else
    match stripLit " tells you: ".toList (l.dropWhile isWordChar) with
    | none => none
    | some r =>
      let m := r.takeWhile fun c => !isLineTerm c
      if m.isEmpty then none else some (w1, m)

/-- `content.match(/You say in (\w+): (.+)/)`. -/
def youSayMatch (l : JStr) : Option (JStr × JStr) := findMapAt youSayMatchAt l

/-- `content.match(/(\w+) says in (\w+): (.+)/)`. -/
def saysInMatch (l : JStr) : Option (JStr × JStr × JStr) :=
  findMapAt saysInMatchAt l

/-- `content.match(/(\w+) tells you: (.+)/)`. -/
def tellsYouMatch (l : JStr) : Option (JStr × JStr) :=
  findMapAt tellsYouMatchAt l

/-- At one position: `exits:\s*(.+)$`, returning the capture.  The greedy
`\s*` backtracks only when the remainder would be empty, in which case the
match succeeds exactly when the final character can be matched by `.`. -/
def exitsMatchAt (l : JStr) : Option JStr :=
  match stripLit "exits:".toList l with
  | none => none
  | some r =>
    let b := r.dropWhile isJsWhite
    if b.isEmpty then
      match r.getLast? with
      | none => none
      | some c => if isLineTerm c then none else some [c]
    else
      if b.all (fun c => !isLineTerm c) then some b else none

/-- `line.match(/exits:\s*(.+)$/)`, capture group 1. -/
def exitsMatch (l : JStr) : Option JStr := findMapAt exitsMatchAt l

/-- Tail `\s*(.*)$` of the player regex: greedy `\s*`, then `(.*)`
(non-line-terminators) must reach the end of the line.  Succeeds with the
remainder after the maximal whitespace run iff that remainder contains no
line terminator. -/
def playerTail (u : JStr) : Option JStr :=
  let b := u.dropWhile isJsWhite
  if b.all (fun c => !isLineTerm c) then some b else none

/-- Optional group `(\s+\([^)]+\))?` of the player regex: `\s+` then a
parenthesised non-empty run of non-`)` characters.  Returns the matched
text and the remainder.  No internal backtracking: `\s` cannot match `(`
and `[^)]` cannot match `)`. -/
def playerTitleGroup (u : JStr) : Option (JStr × JStr) :=
  let s1 := u.takeWhile isJsWhite
  if s1.isEmpty then none
  else
    match u.dropWhile isJsWhite with
    | '(' :: r2 =>
      let p := r2.takeWhile (fun c => c ≠ ')')
      if p.isEmpty then none
      else
        match r2.dropWhile (fun c => c ≠ ')') with
        | ')' :: r4 => some (s1 ++ '(' :: (p ++ [')']), r4)
        | _ => none
    | _ => none

/-- Continuation `((\s+\([^)]+\))?\s*(.*)$)` after the lazy name group:
first try the optional title group (the `?` is greedy), then the tail;
on failure fall back to the empty option. -/
def playerContAt (u : JStr) : Option (Option JStr × JStr) :=
  match playerTitleGroup u with
  | some (g, rest) =>
    match playerTail rest with
    | some s => some (some g, s)
    | none =>
      match playerTail u with
      | some s => some (none, s)
      | none => none
  | none =>
    match playerTail u with
    | some s => some (none, s)
    | none => none

/-- Lazy `(.+?)` of the player regex: grow the captured name one
character at a time (each matched by `.`), trying the continuation after
every step; the first success wins. -/
def playerLazy (nameRev : JStr) : JStr → Option (JStr × Option JStr × JStr)
  | [] => none
  | c :: cs =>
    if isLineTerm c then none
    else
      match playerContAt cs with
      | some (t, s) => some ((c :: nameRev).reverse, t, s)
      | none => playerLazy (c :: nameRev) cs

/-- `line.match(/^\(idle ([^)]+)\) (.+?)(\s+\([^)]+\))?\s*(.*)$/)`:
returns (idle group, name group, optional title group, status group). -/
def playerLineMatch (line : JStr) : Option (JStr × JStr × Option JStr × JStr) :=
  match stripLit "(idle ".toList line with
  | none => none
  | some r =>
    let idle := r.takeWhile (fun c => c ≠ ')')
    if idle.isEmpty then none
    else
      match r.dropWhile (fun c => c ≠ ')') with
      | ')' :: ' ' :: r3 =>
        match playerLazy [] r3 with
        | some (nm, t, st) => some (idle, nm, t, st)
        | none => none
      | _ => none

mutual

/-- `String.prototype.split(/\s+/)`, accumulating the current token. -/
def splitWsGo (acc : JStr) : JStr → List JStr
  | [] => [acc.reverse]
  | c :: cs =>
    if isJsWhite c then acc.reverse :: splitWsSkip cs
    else splitWsGo (c :: acc) cs

/-- Skip the rest of a whitespace separator run. -/
def splitWsSkip : JStr → List JStr
  | [] => [[]]
  | c :: cs =>
    if isJsWhite c then splitWsSkip cs
    else splitWsGo [c] cs

end

/-- `line.split(/\s+/)`. -/
def splitWs (l : JStr) : List JStr := splitWsGo [] l

/-- One player record of a `player_list` event. -/
structure PlayerRec where
  name : JStr
  idle_time : JStr
  title : JStr
  status : JStr
deriving DecidableEq, Repr

/-- The type-specific `data` payload of a `ParsedEvent`, one constructor
per event builder of the source.  Field order follows the TS object
literals; extraction fields that can be left `undefined` are `Option`. -/
inductive EventData where
  | loginSuccess (message : JStr) (player_name : JStr)
  | roomDescription (description : JStr) (exits objects npcs : List JStr)
      (raw_content : JStr)
  | chatMessage (speaker message language chat_type : Option JStr)
      (raw_content : JStr)
  | playerList (players : List PlayerRec) (total_players : Nat)
      (raw_content : JStr)
  | playerAction (action : JStr) (player : JStr)
  | helpText (content : JStr) (formatted : Bool)
  | systemResponse (message : JStr) (response_type : JStr)
  | commandPrompt (ready_for_input : Bool)
  | welcomeScreen (content : JStr) (ascii_art : Bool)
  | urlSubmission (message : JStr) (success : Bool)
  | unknown (content : JStr)
deriving DecidableEq, Repr

/-- The `ParsedEvent` interface.  The optional `id?` field of the TS
interface is never assigned by the parser and is omitted. -/
structure ParsedEvent where
  session_id : Nat
  event_type : JStr
  data : EventData
  raw_message_ids : List Nat
  timestamp : JStr
deriving DecidableEq, Repr

/-- One pending raw message `{id, content, timestamp}` as pushed by
`parseMessage` onto `context.pendingMessages`. -/
structure RawMsg where
  id : Nat
  content : JStr
  timestamp : JStr
deriving DecidableEq, Repr

/-- `MessageParserContext`. -/
structure MessageParserContext where
  pendingMessages : List RawMsg
  lastEventType : Option JStr
  roomContext : Option EventData
deriving DecidableEq, Repr

/-- The initial `private context` of a fresh `MessageParser` instance:
`{ pendingMessages: [] }`. -/
def initialContext : MessageParserContext :=
  { pendingMessages := [], lastEventType := none, roomContext := none }

-- The `MessageParser.EVENT_TYPES` constants.
namespace EVENT_TYPES

def LOGIN_SUCCESS : JStr := "login_success".toList

def ROOM_DESCRIPTION : JStr := "room_description".toList

def PLAYER_ACTION : JStr := "player_action".toList

def SYSTEM_RESPONSE : JStr := "system_response".toList

def CHAT_MESSAGE : JStr := "chat_message".toList

def PLAYER_LIST : JStr := "player_list".toList

def HELP_TEXT : JStr := "help_text".toList

def COMMAND_PROMPT : JStr := "command_prompt".toList

def TELNET_NEGOTIATION : JStr := "telnet_negotiation".toList

def WELCOME_SCREEN : JStr := "welcome_screen".toList

def URL_SUBMISSION : JStr := "url_submission".toList

end EVENT_TYPES

/-- `isLoginSuccess`. -/
def isLoginSuccess (content : JStr) : Bool :=
  containsLit "[Awwaiid has entered the game.]".toList content ||
  containsLit "entered the game".toList content

/-- `isRoomDescription`. -/
def isRoomDescription (content : JStr) : Bool :=
  containsLit "You are in".toList content &&
  (containsLit "obvious exits:".toList content ||
   containsLit "There are".toList content)

/-- `isChatMessage`: the four chat regex tests, in source order. -/
def isChatMessage (content : JStr) : Bool :=
  testYouSay content || testSaysIn content ||
  testTellsYou content || testYouTell content

/-- `isPlayerList`. -/
def isPlayerList (content : JStr) : Bool :=
  containsLit "WeeHours LP ::".toList content &&
  containsLit "players ::".toList content

/-- `isPlayerAction`: `/^You \w+/.test(content.trim())` with the two
substring exclusions (tested on the untrimmed content, as in the
source). -/
def isPlayerAction (content : JStr) : Bool :=
  (match stripLit "You ".toList (jsTrim content) with
   | some (c :: _) => isWordChar c
   | _ => false) &&
  !containsLit "You say".toList content &&
  !containsLit "You are".toList content

/-- `isHelpText` (the second literal is the 74-dash separator line of the
source). -/
def isHelpText (content : JStr) : Bool :=
  containsLit "Commands      :".toList content ||
  containsLit (List.replicate 74 '-') content

/-- `isSystemResponse`. -/
def isSystemResponse (content : JStr) : Bool :=
  startsLit "Syntax:".toList content ||
  jsTrim content = "What?".toList ||
  containsLit "Sorry, no such help topic".toList content ||
  containsLit "Changed \x27idle\x27 to".toList content

/-- `isCommandPrompt`. -/
def isCommandPrompt (content : JStr) : Bool :=
  jsTrim content = ">".toList || jsTrim content = "> ".toList

/-- `isWelcomeScreen`. -/
def isWelcomeScreen (content : JStr) : Bool :=
  containsLit "WEEHOURS LPMUD".toList content ||
  containsLit "What is your name:".toList content ||
  containsLit (List.replicate 11 'E') content

/-- `isUrlSubmission`. -/
def isUrlSubmission (content : JStr) : Bool :=
  containsLit "URL added to http://weehours.net".toList content

/-- `createLoginSuccessEvent`. -/
def createLoginSuccessEvent (id : Nat) (content ts : JStr) : ParsedEvent :=
  { session_id := 1
    event_type := EVENT_TYPES.LOGIN_SUCCESS
    data := .loginSuccess (jsTrim content) "Awwaiid".toList
    raw_message_ids := [id]
    timestamp := ts }

/-- The mutable accumulator of the line walk in
`createRoomDescriptionEvent`. -/
structure RoomAcc where
  description : List JStr
  exits : List JStr
  objects : List JStr
  npcs : List JStr
  currentSection : JStr
deriving DecidableEq, Repr

/-- One iteration of the `for (const line of lines)` loop of
`createRoomDescriptionEvent`. -/
def roomStep (acc : RoomAcc) (line : JStr) : RoomAcc :=
  if containsLit "obvious exits:".toList line then
    let acc := { acc with currentSection := "exits".toList }
    match exitsMatch line with
    | some ex =>
      { acc with
        exits := acc.exits ++ (splitOnChar ',' ex).map jsTrim }
    | none => acc
  else if containsLit "There is a".toList line ||
          containsLit "There are".toList line then
    { acc with currentSection := "objects".toList }
  else if acc.currentSection = "description".toList &&
          !containsLit "You are in".toList line then
    { acc with description := acc.description ++ [line] }
  else if acc.currentSection = "objects".toList then
    if containsLit ".".toList line then
      { acc with objects := acc.objects ++ [line] }
    else
      { acc with npcs := acc.npcs ++ [line] }
  else acc

/-- `createRoomDescriptionEvent`. -/
def createRoomDescriptionEvent (id : Nat) (content ts : JStr) : ParsedEvent :=
  let lines := ((splitOnChar '\n' content).map jsTrim).filter
    fun l => !l.isEmpty
  let acc := lines.foldl roomStep
    { description := [], exits := [], objects := [], npcs := []
      currentSection := "description".toList }
  { session_id := 1
    event_type := EVENT_TYPES.ROOM_DESCRIPTION
    data := .roomDescription (List.intercalate [' '] acc.description)
      acc.exits acc.objects acc.npcs content
    raw_message_ids := [id]
    timestamp := ts }

/-- `createChatMessageEvent`: the three extraction regexes tried in
order; when none matches all four extracted fields stay `undefined`. -/
def createChatMessageEvent (id : Nat) (content ts : JStr) : ParsedEvent :=
  let fields : Option JStr × Option JStr × Option JStr × Option JStr :=
    match youSayMatch content with
    | some (lang, msg) =>
      (some "Awwaiid".toList, some msg, some lang, some "say".toList)
    | none =>
      match saysInMatch content with
      | some (sp, lang, msg) => (some sp, some msg, some lang, some "say".toList)
      | none =>
        match tellsYouMatch content with
        | some (sp, msg) =>
          (some sp, some msg, some "common".toList, some "tell".toList)
        | none => (none, none, none, none)
  { session_id := 1
    event_type := EVENT_TYPES.CHAT_MESSAGE
    data := .chatMessage fields.1 fields.2.1 fields.2.2.1 fields.2.2.2
      (jsTrim content)
    raw_message_ids := [id]
    timestamp := ts }

/-- The per-line body of the player-list loop: the idle-player regex, then
the active-player fallback; lines matching neither are skipped. -/
def playerFromLine (line : JStr) : Option PlayerRec :=
  match playerLineMatch line with
  | some (idle, nm, t, st) =>
    some { name := jsTrim nm, idle_time := idle
           title := t.getD [], status := st }
  | none =>
    if (match line with
        | c :: _ => isWordChar c
        | [] => false) &&
       !containsLit "::".toList line && !containsLit "---".toList line then
      let parts := splitWs line
      if 2 ≤ parts.length then
        some { name := parts.headD []
               idle_time := "active".toList
               title := List.intercalate [' '] (parts.drop 1)
               status := [] }
      else none
    else none

/-- `createPlayerListEvent`. -/
def createPlayerListEvent (id : Nat) (content ts : JStr) : ParsedEvent :=
  let players := (splitOnChar '\n' content).filterMap playerFromLine
  { session_id := 1
    event_type := EVENT_TYPES.PLAYER_LIST
    data := .playerList players players.length content
    raw_message_ids := [id]
    timestamp := ts }

/-- `createPlayerActionEvent`. -/
def createPlayerActionEvent (id : Nat) (content ts : JStr) : ParsedEvent :=
  { session_id := 1
    event_type := EVENT_TYPES.PLAYER_ACTION
    data := .playerAction (jsTrim content) "Awwaiid".toList
    raw_message_ids := [id]
    timestamp := ts }

/-- `createHelpTextEvent`. -/
def createHelpTextEvent (id : Nat) (content ts : JStr) : ParsedEvent :=
  { session_id := 1
    event_type := EVENT_TYPES.HELP_TEXT
    data := .helpText (jsTrim content) true
    raw_message_ids := [id]
    timestamp := ts }

/-- `classifySystemResponse`. -/
def classifySystemResponse (content : JStr) : JStr :=
  if startsLit "Syntax:".toList content then "syntax_error".toList
  else if jsTrim content = "What?".toList then "unknown_command".toList
  else if containsLit "Sorry, no such help topic".toList content then
    "help_not_found".toList
  else if containsLit "Changed \x27idle\x27 to".toList content then
    "setting_changed".toList
  else "general".toList

/-- `createSystemResponseEvent`. -/
def createSystemResponseEvent (id : Nat) (content ts : JStr) : ParsedEvent :=
  { session_id := 1
    event_type := EVENT_TYPES.SYSTEM_RESPONSE
    data := .systemResponse (jsTrim content) (classifySystemResponse content)
    raw_message_ids := [id]
    timestamp := ts }

/-- `createCommandPromptEvent`. -/
def createCommandPromptEvent (id : Nat) (content ts : JStr) : ParsedEvent :=
  { session_id := 1
    event_type := EVENT_TYPES.COMMAND_PROMPT
    data := .commandPrompt true
    raw_message_ids := [id]
    timestamp := ts }

/-- `createWelcomeScreenEvent`. -/
def createWelcomeScreenEvent (id : Nat) (content ts : JStr) : ParsedEvent :=
  { session_id := 1
    event_type := EVENT_TYPES.WELCOME_SCREEN
    data := .welcomeScreen content true
    raw_message_ids := [id]
    timestamp := ts }

/-- `createUrlSubmissionEvent`. -/
def createUrlSubmissionEvent (id : Nat) (content ts : JStr) : ParsedEvent :=
  { session_id := 1
    event_type := EVENT_TYPES.URL_SUBMISSION
    data := .urlSubmission (jsTrim content)
      (containsLit "URL added".toList content)
    raw_message_ids := [id]
    timestamp := ts }

/-- `createUnknownEvent`. -/
def createUnknownEvent (id : Nat) (content ts : JStr) : ParsedEvent :=
  { session_id := 1
    event_type := "unknown".toList
    data := .unknown (jsTrim content)
    raw_message_ids := [id]
    timestamp := ts }

/-- The ordered `if/else` classification chain of `parseMessage` on the
cleaned non-empty content: first matching predicate wins, `unknown` is
the catch-all, and each branch pushes exactly one event. -/
def classifyEvents (id : Nat) (cc ts : JStr) : List ParsedEvent :=
  if isLoginSuccess cc then [createLoginSuccessEvent id cc ts]
  else if isRoomDescription cc then [createRoomDescriptionEvent id cc ts]
  else if isChatMessage cc then [createChatMessageEvent id cc ts]
  else if isPlayerList cc then [createPlayerListEvent id cc ts]
  else if isPlayerAction cc then [createPlayerActionEvent id cc ts]
  else if isHelpText cc then [createHelpTextEvent id cc ts]
  else if isSystemResponse cc then [createSystemResponseEvent id cc ts]
  else if isCommandPrompt cc then [createCommandPromptEvent id cc ts]
  else if isWelcomeScreen cc then [createWelcomeScreenEvent id cc ts]
  else if isUrlSubmission cc then [createUrlSubmissionEvent id cc ts]
  else [createUnknownEvent id cc ts]

/-- The body of the `for (const event of events)` loop of
`updateContext`: record the last event type and, for
`room_description`, the room data. -/
def updateContextStep (c : MessageParserContext) (e : ParsedEvent) :
    MessageParserContext :=
  let c2 := { c with lastEventType := some e.event_type }
  if e.event_type = EVENT_TYPES.ROOM_DESCRIPTION then
    { c2 with roomContext := some e.data }
  else c2

/-- `updateContext`: fold the loop body over the produced events. -/
def updateContext (ctx : MessageParserContext) (events : List ParsedEvent) :
    MessageParserContext :=
  events.foldl updateContextStep ctx

/-- `parseMessage(id, content, timestamp)`: push the raw unit onto
`pendingMessages`, clean, skip when the trimmed cleaned content is empty,
otherwise classify, build the single event and update the context.
Returns the produced events together with the mutated parser context. -/
def parseMessage (ctx : MessageParserContext) (id : Nat) (content ts : JStr) :
    List ParsedEvent × MessageParserContext :=
  let ctx := { ctx with
    pendingMessages := ctx.pendingMessages ++ [⟨id, content, ts⟩] }
  let cc := cleanContent content
  if (jsTrim cc).isEmpty then ([], ctx)
  else
    let events := classifyEvents id cc ts
    (events, updateContext ctx events)

/-- The `objects` field of a `room_description` payload. -/
def objectsOf : EventData → List JStr
  | .roomDescription _ _ o _ _ => o
  | _ => []

/-- The `players` field of a `player_list` payload. -/
def playersOf : EventData → List PlayerRec
  | .playerList p _ _ => p
  | _ => []

/-- The `speaker` field of a `chat_message` payload. -/
def speakerOf : EventData → Option JStr
  | .chatMessage sp _ _ _ _ => sp
  | _ => none

/-- The three-line room-description input of the spec's test 6. -/
def roomPubInput : JStr :=
  "You are in a small pub.\nThere is a bar here.\nThe obvious exits are: obvious exits: north, south".toList

/-- The object line of `roomPubInput`. -/
def barLine : JStr := "There is a bar here.".toList

/-- The player-list input of the spec's test 7, preceded by the header
line that makes `isPlayerList` fire. -/
def playerListInput : JStr :=
  "WeeHours LP :: players ::\n(idle 5m) Bob (wizard) away".toList

/-- The player record the code actually produces for the line
`(idle 5m) Bob (wizard) away`: the lazy `(.+?)` captures only `B`. -/
def bobActualRec : PlayerRec :=
  { name := "B".toList, idle_time := "5m".toList, title := []
    status := "ob (wizard) away".toList }

/-- The player record the claim predicts for the same line. -/
def bobClaimedRec : PlayerRec :=
  { name := "Bob".toList, idle_time := "5m".toList
    title := "(wizard)".toList, status := "away".toList }

/-- A `You tell <word>: <text>` input. -/
def youTellInput : JStr := "You tell Bob: hi".toList

/-! ## Helper lemmas -/

/-- A character other than IAC never starts a telnet-strip match. -/
lemma telnetStrip_cons_ne {c : Char} (h : c ≠ IAC) (rest : JStr) :
    telnetStrip (c :: rest) = c :: telnetStrip rest := by
  match rest with
  | [] => rfl
  | [c2] => rfl
  | c2 :: c3 :: r =>
    simp only [telnetStrip]
    rw [if_neg fun hc => h hc.1]

/-- The telnet-strip pass is the identity on IAC-free strings. -/
lemma telnetStrip_eq_of_no_iac {l : JStr} (h : ∀ c ∈ l, c ≠ IAC) :
    telnetStrip l = l := by
  induction l with
  | nil => rfl
  | cons c rest ih =>
    rw [telnetStrip_cons_ne (h c (List.mem_cons_self c rest)) rest,
      ih fun x hx => h x (List.mem_cons_of_mem c hx)]

/-- A character other than CR never starts a CRLF replacement. -/
lemma crlfToLf_cons_ne {c : Char} (h : c ≠ '\r') (rest : JStr) :
    crlfToLf (c :: rest) = c :: crlfToLf rest := by
  match rest with
  | [] => rfl
  | c2 :: r =>
    simp only [crlfToLf]
    rw [if_neg fun hc => h hc.1]

/-- The CRLF replacement is the identity on CR-free strings. -/
lemma crlfToLf_eq_of_no_cr {l : JStr} (h : ∀ c ∈ l, c ≠ '\r') :
    crlfToLf l = l := by
  induction l with
  | nil => rfl
  | cons c rest ih =>
    rw [crlfToLf_cons_ne (h c (List.mem_cons_self c rest)) rest,
      ih fun x hx => h x (List.mem_cons_of_mem c hx)]

/-- Every character of `crlfToLf l` is a character of `l` or an LF. -/
lemma crlfToLf_mem : ∀ (l : JStr), ∀ x ∈ crlfToLf l, x ∈ l ∨ x = '\n'
  | [], x, hx => absurd hx (by simp [crlfToLf])
  | [c], x, hx => by
    simp only [crlfToLf] at hx
    exact Or.inl hx
  | c :: c2 :: r, x, hx => by
    simp only [crlfToLf] at hx
    by_cases h : c = '\r' ∧ c2 = '\n'
    · rw [if_pos h] at hx
      rcases List.mem_cons.1 hx with h1 | h1
      · exact Or.inr h1
      · rcases crlfToLf_mem r x h1 with h2 | h2
        · exact Or.inl (by simp [h2])
        · exact Or.inr h2
    · rw [if_neg h] at hx
      rcases List.mem_cons.1 hx with h1 | h1
      · exact Or.inl (by simp [h1])
      · rcases crlfToLf_mem (c2 :: r) x h1 with h2 | h2
        · exact Or.inl (List.mem_cons_of_mem c h2)
        · exact Or.inr h2

/-- The CR replacement is the identity on CR-free strings. -/
lemma crToLf_eq_of_no_cr {l : JStr} (h : ∀ c ∈ l, c ≠ '\r') :
    crToLf l = l := by
  unfold crToLf
  rw [List.map_congr_left fun a ha => if_neg (h a ha)]
  exact List.map_id l

/-- The output of the CR replacement contains no CR. -/
lemma crToLf_no_cr (l : JStr) : ∀ x ∈ crToLf l, x ≠ '\r' := by
  intro x hx
  rcases List.mem_map.1 hx with ⟨a, _, rfl⟩
  by_cases ha : a = '\r' <;> simp [ha]

/-- The CR replacement preserves IAC-freeness. -/
lemma crToLf_no_iac {l : JStr} (h : ∀ c ∈ l, c ≠ IAC) :
    ∀ x ∈ crToLf l, x ≠ IAC := by
  intro x hx
  rcases List.mem_map.1 hx with ⟨a, ha, rfl⟩
  by_cases hr : a = '\r' <;> simp [hr]
  · decide
  · exact h a ha

/-- The CRLF replacement preserves IAC-freeness. -/
lemma crlfToLf_no_iac {l : JStr} (h : ∀ c ∈ l, c ≠ IAC) :
    ∀ x ∈ crlfToLf l, x ≠ IAC := by
  intro x hx
  rcases crlfToLf_mem l x hx with h1 | h1
  · exact h x h1
  · rw [h1]; decide

/-- Each branch of the classification chain pushes exactly one event. -/
lemma classifyEvents_length (id : Nat) (cc ts : JStr) :
    (classifyEvents id cc ts).length = 1 := by
  unfold classifyEvents
  repeat' split
  all_goals rfl

/-- Every event built by the classification chain has `session_id = 1`,
`raw_message_ids = [id]` and a non-empty `event_type`. -/
lemma classifyEvents_fields (id : Nat) (cc ts : JStr) :
    ∀ e ∈ classifyEvents id cc ts,
      e.session_id = 1 ∧ e.raw_message_ids = [id] ∧ e.event_type ≠ [] := by
  intro e he
  unfold classifyEvents at he
  repeat' split at he
  all_goals rw [List.mem_singleton] at he
  all_goals subst he
  all_goals refine ⟨rfl, rfl, ?_⟩
  all_goals simp only [createLoginSuccessEvent, createRoomDescriptionEvent,
    createChatMessageEvent, createPlayerListEvent, createPlayerActionEvent,
    createHelpTextEvent, createSystemResponseEvent, createCommandPromptEvent,
    createWelcomeScreenEvent, createUrlSubmissionEvent, createUnknownEvent]
  all_goals decide

/-- The events returned by `parseMessage` do not depend on the incoming
parser context. -/
lemma parseMessage_fst_eq (ctx ctx' : MessageParserContext) (id : Nat)
    (s ts : JStr) :
    (parseMessage ctx id s ts).1 = (parseMessage ctx' id s ts).1 := by
  by_cases h : (jsTrim (cleanContent s)).isEmpty = true <;>
    simp [parseMessage, h]

/-- The context-update step never touches `pendingMessages`. -/
lemma updateContextStep_pendingMessages (c : MessageParserContext)
    (e : ParsedEvent) :
    (updateContextStep c e).pendingMessages = c.pendingMessages := by
  unfold updateContextStep
  split <;> rfl

/-- `updateContext` never touches `pendingMessages`. -/
lemma updateContext_pendingMessages (ctx : MessageParserContext)
    (events : List ParsedEvent) :
    (updateContext ctx events).pendingMessages = ctx.pendingMessages := by
  induction events generalizing ctx with
  | nil => rfl
  | cons e evs ih =>
    unfold updateContext at ih ⊢
    rw [List.foldl_cons, ih (updateContextStep ctx e),
      updateContextStep_pendingMessages]

/-! ## Claim theorems -/

/-- Claim C1: for every input string `s`, `parseMessage(id, s, timestamp)`
returns exactly one `ParsedEvent` (whose `event_type` is a non-empty —
in the TS source, non-null — string) when the cleaned content is
non-empty after trimming, and returns an empty list when
`clean(s).trim()` is empty; it never returns two or more events (and, the
embedding being total, never throws). -/
theorem parseMessage_totality (ctx : MessageParserContext) (id : Nat)
    (s ts : JStr) :
    ((parseMessage ctx id s ts).1.length =
      if (jsTrim (cleanContent s)).isEmpty then 0 else 1) ∧
    ∀ e ∈ (parseMessage ctx id s ts).1, e.event_type ≠ [] := by
  constructor
  · by_cases h : (jsTrim (cleanContent s)).isEmpty = true <;>
      simp [parseMessage, h, classifyEvents_length]
  · intro e he
    by_cases h : (jsTrim (cleanContent s)).isEmpty = true <;>
      simp [parseMessage, h] at he
    exact (classifyEvents_fields id (cleanContent s) ts e he).2.2

/-- Witness for C1 at the concrete input `"hello"`: one event with a
non-empty event type. -/
theorem parseMessage_totality_witness :
    (parseMessage initialContext 1 "hello".toList "t".toList).1.length = 1 ∧
    (createUnknownEvent 1 "hello".toList "t".toList).event_type ≠ [] := by
  have h := parseMessage_totality initialContext 1 "hello".toList "t".toList
  refine ⟨?_, ?_⟩
  · rw [h.1]; decide
  · exact h.2 (createUnknownEvent 1 "hello".toList "t".toList) (by decide)

/-- Counterexample to claim C2: on the input 0xFF 'A' the IAC byte ends
the buffer with fewer than two following bytes, and the cleaner keeps it
instead of dropping it — the output is not the claimed `"A"`. -/
theorem cleanContent_incomplete_iac_counterexample :
    cleanContent [IAC, 'A'] = [IAC, 'A'] ∧
    cleanContent [IAC, 'A'] ≠ ['A'] := by
  decide

/-- Claim C2 (amended): when the IAC byte has fewer than two bytes after
it, the regex `\xFF[\xFB-\xFF].` cannot match there, so nothing at all is
dropped: the IAC byte and all following bytes are kept (up to CR/LF
normalization of the following bytes). -/
theorem cleanContent_incomplete_iac_keeps (rest : JStr)
    (h : rest.length < 2) :
    telnetStrip (IAC :: rest) = IAC :: rest ∧
    cleanContent (IAC :: rest) = IAC :: crToLf (crlfToLf rest) := by
  match rest with
  | [] => exact ⟨rfl, by decide⟩
  | [c] =>
    refine ⟨rfl, ?_⟩
    unfold cleanContent
    have h1 : telnetStrip [IAC, c] = [IAC, c] := rfl
    have h2 : crlfToLf [IAC, c] = IAC :: crlfToLf [c] :=
      crlfToLf_cons_ne (by decide) [c]
    rw [h1, h2]
    unfold crToLf
    rw [List.map_cons, if_neg (by decide : ¬IAC = '\r')]
  | c :: c2 :: r => exact absurd h (by simp)

/-- Witness for C2 (amended) at `rest = ['A']`. -/
theorem cleanContent_incomplete_iac_keeps_witness :
    telnetStrip (IAC :: ['A']) = IAC :: ['A'] ∧
    cleanContent (IAC :: ['A']) = IAC :: crToLf (crlfToLf ['A']) :=
  cleanContent_incomplete_iac_keeps ['A'] (by decide)

/-- Counterexample to claim C3: the input bytes 0xFF 0xFB 0x0A form IAC,
a command byte (WILL) and an option byte, yet the cleaner removes
nothing, because the regex `.` does not match the line terminator 0x0A. -/
theorem cleanContent_telnet_strip_counterexample :
    cleanContent [IAC, '\xFB', '\n'] = [IAC, '\xFB', '\n'] ∧
    cleanContent [IAC, '\xFB', '\n'] ≠ [] := by
  decide

/-- Claim C3 (amended): in its left-to-right scan the cleaner removes, in
full, every three-byte group starting at the scan position that consists
of IAC, a byte in 0xFB–0xFF, and a byte that is not a line terminator;
in particular the bytes 0xFF 0xFB 0x01 0x41 clean to exactly `"A"`. -/
theorem telnetStrip_removes_full_sequence :
    (∀ (c2 c3 : Char) (rest : JStr), isTelCmdByte c2 = true →
      isLineTerm c3 = false →
      telnetStrip (IAC :: c2 :: c3 :: rest) = telnetStrip rest) ∧
    cleanContent [IAC, '\xFB', '\x01', 'A'] = ['A'] := by
  constructor
  · intro c2 c3 rest h2 h3
    simp [telnetStrip, h2, h3]
  · decide

/-- Witness for C3 (amended) at IAC WILL 0x01 followed by `"A"`. -/
theorem telnetStrip_removes_full_sequence_witness :
    telnetStrip (IAC :: '\xFB' :: '\x01' :: ['A']) = telnetStrip ['A'] :=
  telnetStrip_removes_full_sequence.1 '\xFB' '\x01' ['A']
    (by decide) (by decide)

/-- Claim C7: the content cleaner is idempotent on IAC-free input. -/
theorem cleanContent_idempotent (s : JStr) (h : ∀ c ∈ s, c ≠ IAC) :
    cleanContent (cleanContent s) = cleanContent s := by
  have hstrip : telnetStrip s = s := telnetStrip_eq_of_no_iac h
  have hs : cleanContent s = crToLf (crlfToLf s) := by
    unfold cleanContent; rw [hstrip]
  have htIAC : ∀ c ∈ cleanContent s, c ≠ IAC := by
    rw [hs]; exact crToLf_no_iac (crlfToLf_no_iac h)
  have htCR : ∀ c ∈ cleanContent s, c ≠ '\r' := by
    rw [hs]; exact crToLf_no_cr (crlfToLf s)
  calc cleanContent (cleanContent s)
      = crToLf (crlfToLf (telnetStrip (cleanContent s))) := rfl
    _ = crToLf (crlfToLf (cleanContent s)) := by
        rw [telnetStrip_eq_of_no_iac htIAC]
    _ = crToLf (cleanContent s) := by rw [crlfToLf_eq_of_no_cr htCR]
    _ = cleanContent s := crToLf_eq_of_no_cr htCR

/-- Witness for C7 at the concrete IAC-free input `"a\r\nb"`. -/
theorem cleanContent_idempotent_witness :
    cleanContent (cleanContent "a\r\nb".toList) =
      cleanContent "a\r\nb".toList :=
  cleanContent_idempotent "a\r\nb".toList (by decide)

/-- Counterexample to claim C4: on the three-line pub input the single
`room_description` event has an empty `objects` array — the
`"There is a bar here."` line is consumed as the section marker and is
not retained, so `data.objects` does not contain it. -/
theorem room_description_objects_counterexample :
    ((parseMessage initialContext 1 roomPubInput "t".toList).1.map
      fun e => objectsOf e.data) = [([] : List JStr)] ∧
    barLine ∉ ([] : List JStr) := by
  exact ⟨rfl, by simp⟩

/-- Claim C4 (amended): the pub input produces exactly one event with
`event_type = room_description`, `data.exits = ["north", "south"]`, a
`data.description` that excludes the `"You are in"` line (it is the empty
string), and `data.objects` and `data.npcs` both empty — the
`"There is a"` line only switches the walk into the objects section and
is not itself retained. -/
theorem room_description_pub_example :
    (parseMessage initialContext 1 roomPubInput "t".toList).1 =
      [{ session_id := 1
         event_type := EVENT_TYPES.ROOM_DESCRIPTION
         data := .roomDescription [] ["north".toList, "south".toList] [] []
           roomPubInput
         raw_message_ids := [1]
         timestamp := "t".toList }] := by
  rfl

/-- Counterexample to claim C5: for the line
`(idle 5m) Bob (wizard) away` the builder produces the record
`{name: "B", idle_time: "5m", title: "", status: "ob (wizard) away"}`,
not the claimed `{name: "Bob", idle_time: "5m", title: "(wizard)",
status: "away"}`. -/
theorem player_list_regex_counterexample :
    ((parseMessage initialContext 1 playerListInput "t".toList).1.map
      fun e => playersOf e.data) = [[bobActualRec]] ∧
    bobActualRec ≠ bobClaimedRec := by
  exact ⟨rfl, by decide⟩

/-- Claim C5 (amended): the player-list input produces exactly one player
record for the `(idle 5m)` line, equal to `{name: "B", idle_time: "5m",
title: "", status: "ob (wizard) away"}`: the lazy `(.+?)` captures a
single character because the optional title group and the trailing
`(.*)` permit an immediate match. -/
theorem player_list_bob_example :
    (parseMessage initialContext 1 playerListInput "t".toList).1 =
      [{ session_id := 1
         event_type := EVENT_TYPES.PLAYER_LIST
         data := .playerList [bobActualRec] 1 playerListInput
         raw_message_ids := [1]
         timestamp := "t".toList }] := by
  rfl

/-- Counterexample to claim C6: on `"You tell Bob: hi"` the produced
`chat_message` event has `data.speaker = undefined` (`none`), not the
literal self-identity `"Awwaiid"`. -/
theorem chat_tell_speaker_counterexample :
    ((parseMessage initialContext 1 youTellInput "t".toList).1.map
      fun e => speakerOf e.data) = [(none : Option JStr)] ∧
    (none : Option JStr) ≠ some "Awwaiid".toList := by
  exact ⟨rfl, by decide⟩

/-- Claim C6 (amended): an input recognised by the `You tell \w+:` test
(and by no earlier classifier) produces a `chat_message` event, but no
extraction branch of `createChatMessageEvent` handles the `You tell`
form, so whenever the three extraction regexes all fail the fields
`speaker`, `message`, `language` and `chat_type` are all left undefined
(`none`) and only `raw_content` (the trimmed cleaned content) is set. -/
theorem chat_tell_fields_undefined (ctx : MessageParserContext) (id : Nat)
    (s ts : JStr)
    (hL : isLoginSuccess (cleanContent s) = false)
    (hR : isRoomDescription (cleanContent s) = false)
    (hT : testYouTell (cleanContent s) = true)
    (h1 : youSayMatch (cleanContent s) = none)
    (h2 : saysInMatch (cleanContent s) = none)
    (h3 : tellsYouMatch (cleanContent s) = none)
    (hNE : (jsTrim (cleanContent s)).isEmpty = false) :
    (parseMessage ctx id s ts).1 =
      [{ session_id := 1
         event_type := EVENT_TYPES.CHAT_MESSAGE
         data := .chatMessage none none none none (jsTrim (cleanContent s))
         raw_message_ids := [id]
         timestamp := ts }] := by
  have hChat : isChatMessage (cleanContent s) = true := by
    simp [isChatMessage, hT]
  simp [parseMessage, hNE, classifyEvents, hL, hR, hChat,
    createChatMessageEvent, h1, h2, h3]

/-- Witness for C6 (amended) at the concrete input `"You tell Bob: hi"`. -/
theorem chat_tell_fields_undefined_witness :
    (parseMessage initialContext 1 youTellInput "t".toList).1 =
      [{ session_id := 1
         event_type := EVENT_TYPES.CHAT_MESSAGE
         data := .chatMessage none none none none
           (jsTrim (cleanContent youTellInput))
         raw_message_ids := [1]
         timestamp := "t".toList }] :=
  chat_tell_fields_undefined initialContext 1 youTellInput "t".toList
    (by decide) (by decide) (by decide) (by decide) (by decide) (by decide)
    (by decide)

/-- Claim C8: classification ignores the rolling context — parsing a
second input after a call that produced a `room_description` yields the
same event types as parsing it with a fresh parser. -/
theorem classification_context_independent (ctx : MessageParserContext)
    (id1 id2 : Nat) (s1 ts1 s2 ts2 : JStr)
    (h : EVENT_TYPES.ROOM_DESCRIPTION ∈
      (parseMessage ctx id1 s1 ts1).1.map ParsedEvent.event_type) :
    ((parseMessage (parseMessage ctx id1 s1 ts1).2 id2 s2 ts2).1.map
      ParsedEvent.event_type) =
    ((parseMessage initialContext id2 s2 ts2).1.map
      ParsedEvent.event_type) := by
  rw [parseMessage_fst_eq (parseMessage ctx id1 s1 ts1).2 initialContext
    id2 s2 ts2]

/-- Witness for C8: a room description followed by `"hello"`. -/
theorem classification_context_independent_witness :
    ((parseMessage (parseMessage initialContext 1 roomPubInput "t".toList).2
        2 "hello".toList "u".toList).1.map ParsedEvent.event_type) =
    ((parseMessage initialContext 2 "hello".toList "u".toList).1.map
      ParsedEvent.event_type) :=
  classification_context_independent initialContext 1 2 roomPubInput
    "t".toList "hello".toList "u".toList (by decide)

/-- Counterexample to claim C9: after a single call the parser context's
`pendingMessages` holds a full copy of the consumed RawUnit (its id,
content and timestamp) — the context does not hold only `lastEventType`
and `roomContext`. -/
theorem parser_retains_raw_units_counterexample :
    (parseMessage initialContext 5 "hello".toList "ts".toList).2.pendingMessages =
      [{ id := 5, content := "hello".toList, timestamp := "ts".toList }] ∧
    [({ id := 5, content := "hello".toList, timestamp := "ts".toList } : RawMsg)] ≠
      ([] : List RawMsg) := by
  exact ⟨rfl, by decide⟩

/-- Claim C9 (amended): besides `lastEventType` and `roomContext` the
context also holds `pendingMessages`, to which every call appends a copy
of the consumed RawUnit (id, content, timestamp); nothing ever removes
entries from it. -/
theorem pendingMessages_append (ctx : MessageParserContext) (id : Nat)
    (s ts : JStr) :
    (parseMessage ctx id s ts).2.pendingMessages =
      ctx.pendingMessages ++ [{ id := id, content := s, timestamp := ts }] := by
  by_cases h : (jsTrim (cleanContent s)).isEmpty = true <;>
    simp [parseMessage, h, updateContext_pendingMessages]

/-- Claim C10: every event returned by `parseMessage` has
`session_id = 1` and `raw_message_ids = [id]`, for every parser context
(hence regardless of which session owns the parser instance). -/
theorem parsedEvent_session_and_ids (ctx : MessageParserContext) (id : Nat)
    (s ts : JStr) :
    ∀ e ∈ (parseMessage ctx id s ts).1,
      e.session_id = 1 ∧ e.raw_message_ids = [id] := by
  intro e he
  by_cases h : (jsTrim (cleanContent s)).isEmpty = true <;>
    simp [parseMessage, h] at he
  exact ⟨(classifyEvents_fields id (cleanContent s) ts e he).1,
    (classifyEvents_fields id (cleanContent s) ts e he).2.1⟩

/-- Witness for C10 at the concrete input `"hello"` with id 7. -/
theorem parsedEvent_session_and_ids_witness :
    (createUnknownEvent 7 "hello".toList "t".toList).session_id = 1 ∧
    (createUnknownEvent 7 "hello".toList "t".toList).raw_message_ids = [7] :=
  parsedEvent_session_and_ids initialContext 7 "hello".toList "t".toList
    (createUnknownEvent 7 "hello".toList "t".toList) (by decide)

end WeeHours
